import Mathlib

/-!
# go-omchannel: authentication and revocation

A shallow embedding of the user-management API's authentication code
(`pkg/utils/jwt.go`, `middleware/jwt_middleware.go`,
`internal/users/{repository,usecase,delivery}`) and theorems about it.

Conventions of the embedding:

* a Go `error` result is an `Option String` (`none` is `nil`); a Go
  `(T, error)` result is an `Except String T`;
* the `*sql.DB` handle is a value of `DB` threaded through the calls;
* what a gin handler does to its `*gin.Context` (and to the log) is the list
  of `Effect`s it performs, in order;
* clock readings are whole seconds since the epoch, the precision at which
  the jwt library keeps a `NumericDate`;
* third-party code (golang-jwt, encoding/json, encoding/base64, crypto/hmac,
  bcrypt) is not part of the repository: its control flow is written out
  where the repository depends on it and its byte-level primitives are the
  fields of `Lib`.
-/

/-! ## Go standard library: `strings` -/

namespace strings

/-- Go `strings.HasPrefix(s, pre)`. -/
def HasPrefix (s pre : String) : Bool :=
  pre.data.isPrefixOf s.data

/-- Go `strings.TrimPrefix(s, pre)`: `s` without the leading `pre`; `s` itself
when it does not start with `pre`. -/
def TrimPrefix (s pre : String) : String :=
  if HasPrefix s pre then String.mk (s.data.drop pre.data.length) else s

/-- The pieces of a character list between occurrences of `sep`. -/
def splitChars (sep : Char) : List Char → List (List Char)
  | [] => [[]]
  | c :: cs =>
    if c = sep then [] :: splitChars sep cs
    else
      match splitChars sep cs with
      | [] => [[c]]
      | p :: ps => (c :: p) :: ps

/-- Go `strings.Split(s, sep)` for a one-character separator. -/
def Split (s : String) (sep : Char) : List String :=
  (splitChars sep s.data).map String.mk

end strings

/-! ## JSON documents and Go values -/

/-- A JSON value as far as decoding into the repository's structs can tell
values apart: `int` is an integer literal, `float` any other number,
`composite` an array or an object. -/
inductive JSONValue
  | null
  | bool (b : Bool)
  | int (n : Int)
  | float
  | str (s : String)
  | composite
  deriving DecidableEq, Repr

/-- A request body: not JSON at all (an empty body included), a JSON value
that is not an object, or a JSON object with its members in order. -/
inductive Body
  | malformed
  | scalar (v : JSONValue)
  | object (fields : List (String × JSONValue))
  deriving DecidableEq, Repr

/-- Whether an integer fits Go's 64-bit `int`. -/
def fitsInt (n : Int) : Bool :=
  decide (-(2 : Int) ^ 63 ≤ n) && decide (n < (2 : Int) ^ 63)

/-- How encoding/json matches an object key to a struct field's name:
exactly, or ignoring (ASCII) case. -/
def keyMatches (name key : String) : Bool :=
  key == name || key.data.map Char.toLower == name.data.map Char.toLower

namespace users

/-- The struct `Pengguna` of `internal/users/Users.go`. -/
structure Pengguna where
  ID : Int
  Username : String
  Email : String
  Password : String
  RoleID : Int
  ClientID : Int
  CreatedAt : String
  deriving DecidableEq, Repr

/-- The zero value `var u users.Pengguna`. -/
def Pengguna.zero : Pengguna :=
  { ID := 0, Username := "", Email := "", Password := "", RoleID := 0, ClientID := 0,
    CreatedAt := "" }

end users

/-- A Go value stored in a `gin.H` or under a context key. -/
inductive Value
  | str (s : String)
  | int (n : Int)
  | user (u : users.Pengguna)
  deriving DecidableEq, Repr

/-- The map literal `gin.H{...}`, as its key/value pairs. -/
abbrev H := List (String × Value)

/-! ## The database -/

/-- The state behind the `*sql.DB` handle: the rows of the two tables and the
statements the store currently refuses to execute, each with the driver's
error message (a lost connection, a violated constraint, ...). The column
`password_hash` of `users` is the field `Password` of a row. -/
structure DB where
  blacklisted_tokens : List String
  fault : String → Option String
  users : List users.Pengguna

namespace sql

/-- The error `sql.ErrNoRows`. -/
def ErrNoRows : String := "sql: no rows in result set"

def insertBlacklistedToken : String :=
  "INSERT INTO blacklisted_tokens (token) VALUES ($1)"

def existsBlacklistedToken : String :=
  "SELECT EXISTS(SELECT 1 FROM blacklisted_tokens WHERE token = $1 LIMIT 1)"

def selectUserByID : String :=
  "SELECT user_id, username, email, role_id, client_id, created_at FROM users WHERE user_id = $1"

def selectUserByEmail : String :=
  "SELECT user_id, username, email, password_hash, role_id, client_id, created_at FROM users WHERE email = $1"

def deleteUser : String :=
  "DELETE FROM users WHERE user_id = $1"

end sql

namespace repository

/-- The method `userRepo.SaveBlacklistedToken`. -/
def SaveBlacklistedToken (db : DB) (token : String) : DB × Option String :=
  match db.fault sql.insertBlacklistedToken with
  | some err => (db, some ("failed to blacklist token: " ++ err))
  | none => ({ db with blacklisted_tokens := db.blacklisted_tokens ++ [token] }, none)

/-- The method `userRepo.GetByID`: the selected columns leave `Password` at its
zero value. -/
def GetByID (db : DB) (id : Int) : Except String users.Pengguna :=
  match db.fault sql.selectUserByID with
  | some err => .error err
  | none =>
    match db.users.find? (fun r => r.ID == id) with
    | none => .error sql.ErrNoRows
    | some r =>
      .ok { users.Pengguna.zero with
            ID := r.ID, Username := r.Username, Email := r.Email, RoleID := r.RoleID,
            ClientID := r.ClientID, CreatedAt := r.CreatedAt }

/-- The method `userRepo.Delete`. -/
def Delete (db : DB) (id : Int) : DB × Option String :=
  match db.fault sql.deleteUser with
  | some err => (db, some ("failed to delete user with id " ++ toString id ++ ": " ++ err))
  | none => ({ db with users := db.users.filter (fun r => !(r.ID == id)) }, none)

/-- The method `userRepo.GetByEmail`. -/
def GetByEmail (db : DB) (email : String) : Except String users.Pengguna :=
  match db.fault sql.selectUserByEmail with
  | some err => .error ("user not found: " ++ err)
  | none =>
    match db.users.find? (fun r => r.Email == email) with
    | none => .error ("user not found: " ++ sql.ErrNoRows)
    | some r => .ok r

end repository

namespace usecase

/-- The method `userUsecase.GetUserByID`. -/
def GetUserByID (db : DB) (id : Int) : Except String users.Pengguna :=
  match repository.GetByID db id with
  | .error _ => .error "user not found"
  | .ok user => .ok user

/-- The method `userUsecase.BlacklistToken`. -/
def BlacklistToken (db : DB) (token : String) : DB × Option String :=
  match repository.SaveBlacklistedToken db token with
  | (db1, some _) => (db1, some "failed to blacklist token")
  | (db1, none) => (db1, none)

/-- The method `userUsecase.DeleteUser`. -/
def DeleteUser (db : DB) (id : Int) : DB × Option String :=
  match repository.Delete db id with
  | (db1, some _) => (db1, some "failed to delete user")
  | (db1, none) => (db1, none)

/-- The method `userUsecase.GetUserByEmail`. -/
def GetUserByEmail (db : DB) (email : String) : Except String users.Pengguna :=
  match repository.GetByEmail db email with
  | .error _ => .error "user not found"
  | .ok user => .ok user

end usecase

/-! ## Tokens: `pkg/utils/jwt.go` over the golang-jwt library -/

/-- A byte string. -/
abbrev Bytes := List Nat

namespace jwt

/-- The signing methods the library registers. -/
inductive SigningMethod
  | HS256 | HS384 | HS512
  | RS256 | RS384 | RS512
  | PS256 | PS384 | PS512
  | ES256 | ES384 | ES512
  | EdDSA
  | none
  deriving DecidableEq, Repr

/-- The method `Alg()`: the name a method goes by in a token header. -/
def SigningMethod.Alg : SigningMethod → String
  | .HS256 => "HS256" | .HS384 => "HS384" | .HS512 => "HS512"
  | .RS256 => "RS256" | .RS384 => "RS384" | .RS512 => "RS512"
  | .PS256 => "PS256" | .PS384 => "PS384" | .PS512 => "PS512"
  | .ES256 => "ES256" | .ES384 => "ES384" | .ES512 => "ES512"
  | .EdDSA => "EdDSA"
  | .none => "none"

/-- All registered methods. -/
def signingMethods : List SigningMethod :=
  [.HS256, .HS384, .HS512, .RS256, .RS384, .RS512, .PS256, .PS384, .PS512,
   .ES256, .ES384, .ES512, .EdDSA, .none]

/-- The library's `GetSigningMethod(alg)`. -/
def GetSigningMethod (alg : String) : Option SigningMethod :=
  signingMethods.find? (fun m => m.Alg == alg)

/-- Whether a method's Go type is `*jwt.SigningMethodHMAC`. -/
def SigningMethod.isHMAC : SigningMethod → Bool
  | .HS256 | .HS384 | .HS512 => true
  | _ => false

/-- A decoded token header: the string under "alg" (`none` when the member is
absent or not a string) and the string under "typ". -/
structure Header where
  alg : Option String
  typ : Option String
  deriving DecidableEq, Repr

/-- The struct `jwt.RegisteredClaims`; an absent date is `none`. -/
structure RegisteredClaims where
  Issuer : String
  Subject : String
  Audience : List String
  ExpiresAt : Option Nat
  NotBefore : Option Nat
  IssuedAt : Option Nat
  ID : String
  deriving DecidableEq, Repr

/-- The zero value of `jwt.RegisteredClaims`. -/
def RegisteredClaims.zero : RegisteredClaims :=
  { Issuer := "", Subject := "", Audience := [], ExpiresAt := Option.none,
    NotBefore := Option.none, IssuedAt := Option.none, ID := "" }

/-- The struct `jwt.ValidationError`: the message of the inner error and the
bit field `Errors`. -/
structure ValidationError where
  Inner : String
  Errors : Nat
  deriving DecidableEq, Repr

def ValidationErrorMalformed : Nat := 1
def ValidationErrorUnverifiable : Nat := 2
def ValidationErrorSignatureInvalid : Nat := 4
def ValidationErrorExpired : Nat := 16
def ValidationErrorIssuedAt : Nat := 32
def ValidationErrorNotValidYet : Nat := 128

/-- The method `RegisteredClaims.Valid()` at clock reading `now`: `none` when
the claims pass, otherwise the validation error. A date that is absent passes;
`exp` passes while `now` is before it, `iat` and `nbf` once `now` has
reached them. -/
def RegisteredClaims.Valid (c : RegisteredClaims) (now : Nat) : Option ValidationError :=
  let v0 : ValidationError := { Inner := "", Errors := 0 }
  let v1 : ValidationError :=
    match c.ExpiresAt with
    | some exp =>
      if now < exp then v0
      else { Inner := "token is expired", Errors := v0.Errors ||| ValidationErrorExpired }
    | Option.none => v0
  let v2 : ValidationError :=
    match c.IssuedAt with
    | some iat =>
      if iat ≤ now then v1
      else { Inner := "token used before issued", Errors := v1.Errors ||| ValidationErrorIssuedAt }
    | Option.none => v1
  let v3 : ValidationError :=
    match c.NotBefore with
    | some nbf =>
      if nbf ≤ now then v2
      else { Inner := "token is not valid yet", Errors := v2.Errors ||| ValidationErrorNotValidYet }
    | Option.none => v2
  if v3.Errors = 0 then Option.none else some v3

end jwt

namespace utils

/-- The struct `Claims` of `pkg/utils/jwt.go`. -/
structure Claims where
  UserID : Int
  Username : String
  RegisteredClaims : jwt.RegisteredClaims
  deriving DecidableEq, Repr

/-- The package variable `secretKey`. -/
def secretKey : String := "mysecretkey"

end utils

/-- The byte-level primitives of the third-party packages, with what the
embedding relies on about them: a segment that was encoded decodes to the same
bytes and holds no dot; a header or a claim set that was marshalled unmarshals
to itself.

* `EncodeSegment`, `DecodeSegment`: the jwt library's base64url coding;
* `marshalHeader`, `unmarshalHeader`, `marshalClaims`, `unmarshalClaims`:
  encoding/json on a token header and on `utils.Claims`;
* `hmac`: the MAC of a message under a key for an HMAC method;
* `CompareHashAndPassword`: bcrypt, `true` when the call returns `nil`. -/
structure Lib where
  EncodeSegment : Bytes → String
  DecodeSegment : String → Option Bytes
  marshalHeader : jwt.Header → Bytes
  unmarshalHeader : Bytes → Option jwt.Header
  marshalClaims : utils.Claims → Bytes
  unmarshalClaims : Bytes → Option utils.Claims
  hmac : jwt.SigningMethod → String → String → Bytes
  CompareHashAndPassword : String → String → Bool
  decode_encode : ∀ b, DecodeSegment (EncodeSegment b) = some b
  encode_no_dot : ∀ b, '.' ∉ (EncodeSegment b).data
  unmarshal_marshalHeader : ∀ h, unmarshalHeader (marshalHeader h) = some h
  unmarshal_marshalClaims : ∀ c, unmarshalClaims (marshalClaims c) = some c

namespace jwt

/-- The struct `jwt.Token` with `utils.Claims` for its claims. -/
structure Token where
  Raw : String
  Method : SigningMethod
  Header : Header
  Claims : utils.Claims
  Signature : String
  Valid : Bool
  deriving DecidableEq, Repr

/-- The library's `NewWithClaims(method, claims)`. -/
def NewWithClaims (method : SigningMethod) (claims : utils.Claims) : Token :=
  { Raw := "", Method := method, Header := { alg := some method.Alg, typ := some "JWT" },
    Claims := claims, Signature := "", Valid := false }

/-- The method `Sign(signingString, key)` for a key of type `[]byte`: an HMAC
method returns the encoded MAC, any other method refuses the key. -/
def SigningMethod.Sign (lib : Lib) (m : SigningMethod) (signingString key : String) :
    Except String String :=
  if m.isHMAC then .ok (lib.EncodeSegment (lib.hmac m key signingString))
  else .error "key is of invalid type"

/-- The method `Verify(signingString, signature, key)` for a key of type
`[]byte`: `none` when the signature is accepted. -/
def SigningMethod.Verify (lib : Lib) (m : SigningMethod) (signingString signature key : String) :
    Option String :=
  if m.isHMAC then
    match lib.DecodeSegment signature with
    | Option.none => some "illegal base64 data"
    | some sig =>
      if sig = lib.hmac m key signingString then Option.none else some "signature is invalid"
  else some "key is of invalid type"

/-- The method `Token.SigningString()`. -/
def Token.SigningString (lib : Lib) (t : Token) : String :=
  lib.EncodeSegment (lib.marshalHeader t.Header) ++ "." ++
    lib.EncodeSegment (lib.marshalClaims t.Claims)

/-- The method `Token.SignedString(key)`. -/
def Token.SignedString (lib : Lib) (t : Token) (key : String) : Except String String :=
  let sstr := t.SigningString lib
  match t.Method.Sign lib sstr key with
  | .error err => .error err
  | .ok sig => .ok (sstr ++ "." ++ sig)

/-- The method `Parser.ParseUnverified`: split the string into three segments,
decode header and claims, look the method up. Returns the token and the
segments. -/
def ParseUnverified (lib : Lib) (tokenString : String) :
    Except ValidationError (Token × String × String × String) :=
  match strings.Split tokenString '.' with
  | [p0, p1, p2] =>
    match lib.DecodeSegment p0 with
    | Option.none =>
      if strings.HasPrefix tokenString.toLower "bearer " then
        .error { Inner := "tokenstring should not contain bearer",
                 Errors := ValidationErrorMalformed }
      else .error { Inner := "illegal base64 data", Errors := ValidationErrorMalformed }
    | some headerBytes =>
      match lib.unmarshalHeader headerBytes with
      | Option.none => .error { Inner := "invalid json", Errors := ValidationErrorMalformed }
      | some header =>
        match lib.DecodeSegment p1 with
        | Option.none =>
          .error { Inner := "illegal base64 data", Errors := ValidationErrorMalformed }
        | some claimBytes =>
          match lib.unmarshalClaims claimBytes with
          | Option.none => .error { Inner := "invalid json", Errors := ValidationErrorMalformed }
          | some claims =>
            match header.alg with
            | Option.none =>
              .error { Inner := "signing method (alg) is unspecified.",
                       Errors := ValidationErrorUnverifiable }
            | some alg =>
              match GetSigningMethod alg with
              | Option.none =>
                .error { Inner := "signing method (alg) is unavailable.",
                         Errors := ValidationErrorUnverifiable }
              | some method =>
                .ok ({ Raw := tokenString, Method := method, Header := header, Claims := claims,
                       Signature := "", Valid := false }, p0, p1, p2)
  | _ =>
    .error { Inner := "token contains an invalid number of segments",
             Errors := ValidationErrorMalformed }

/-- The library's `ParseWithClaims(tokenString, &Claims{}, keyFunc)` at clock
reading `now`: parse, ask `keyFunc` for the key, validate the claims, verify
the signature; the token comes back with `Valid` set only when nothing
failed. -/
def ParseWithClaims (lib : Lib) (now : Nat) (tokenString : String)
    (keyFunc : Token → Except String String) : Except ValidationError Token :=
  match ParseUnverified lib tokenString with
  | .error err => .error err
  | .ok (token, p0, p1, p2) =>
    match keyFunc token with
    | .error err => .error { Inner := err, Errors := ValidationErrorUnverifiable }
    | .ok key =>
      let vErr : ValidationError :=
        match token.Claims.RegisteredClaims.Valid now with
        | some e => e
        | Option.none => { Inner := "", Errors := 0 }
      let vErr : ValidationError :=
        match token.Method.Verify lib (p0 ++ "." ++ p1) p2 key with
        | some err => { Inner := err, Errors := vErr.Errors ||| ValidationErrorSignatureInvalid }
        | Option.none => vErr
      if vErr.Errors = 0 then .ok { token with Signature := p2, Valid := true }
      else .error vErr

end jwt

namespace utils

/-- The function `CreateToken(userID, username)` called at clock reading
`now` (the line it logs when signing fails is left out). -/
def CreateToken (lib : Lib) (now : Nat) (userID : Int) (username : String) :
    Except String String :=
  let claims : Claims :=
    { UserID := userID, Username := username,
      RegisteredClaims :=
        { jwt.RegisteredClaims.zero with
          Issuer := "myapp", ExpiresAt := some (now + 24 * 3600) } }
  let token := jwt.NewWithClaims jwt.SigningMethod.HS256 claims
  match token.SignedString lib secretKey with
  | .error err => .error err
  | .ok tokenString => .ok tokenString

/-- The key function `VerifyToken` hands to the parser: the secret key for an
HMAC method, an error for any other. -/
def keyFunc (token : jwt.Token) : Except String String :=
  if token.Method.isHMAC then .ok secretKey
  else .error ("unexpected signing method " ++ token.Header.alg.getD "")

/-- The function `VerifyToken(tokenString)` called at clock reading `now`. -/
def VerifyToken (lib : Lib) (now : Nat) (tokenString : String) : Except String Claims :=
  match jwt.ParseWithClaims lib now tokenString keyFunc with
  | .error err => .error err.Inner
  | .ok token => if token.Valid then .ok token.Claims else .error "invalid token"

end utils

/-! ## Requests and handlers -/

namespace gin

/-- What the handlers read of a `*gin.Context`: the request's headers (one
value per name) and its body. -/
structure Context where
  Header : List (String × String)
  Body : Body
  deriving DecidableEq, Repr

/-- The method `c.GetHeader(key)`: the empty string when the header is absent. -/
def Context.GetHeader (c : Context) (key : String) : String :=
  (c.Header.lookup key).getD ""

end gin

/-- What a handler does to its context and to the log: `c.JSON(code, obj)`,
`c.Abort()`, `c.Set(key, value)`, `c.Next()` (the rest of the chain, the
protected handler included, runs inside this call) and a line written with
`log.Printf`. -/
inductive Effect
  | JSON (code : Nat) (obj : H)
  | Abort
  | Set (key : String) (value : Value)
  | Next
  | Log (msg : String)
  deriving DecidableEq, Repr

namespace http

def StatusOK : Nat := 200
def StatusBadRequest : Nat := 400
def StatusUnauthorized : Nat := 401
def StatusNotFound : Nat := 404
def StatusInternalServerError : Nat := 500

end http

namespace json

/-- Decoding a JSON value into a Go `int` that holds `cur`: `null` leaves it,
an integer literal in range replaces it, anything else is a type error. -/
def decodeInt (cur : Int) : JSONValue → Except String Int
  | .null => .ok cur
  | .int n => if fitsInt n then .ok n else .error "json: cannot unmarshal number into int"
  | _ => .error "json: cannot unmarshal value into int"

/-- Decoding a JSON value into a Go `string` that holds `cur`. -/
def decodeString (cur : String) : JSONValue → Except String String
  | .null => .ok cur
  | .str s => .ok s
  | _ => .error "json: cannot unmarshal value into string"

end json

namespace middleware

/-- The handler returned by `JWTMiddleware(db)`, run on context `c` at clock
reading `now`. -/
def JWTMiddleware (lib : Lib) (now : Nat) (db : DB) (c : gin.Context) : List Effect :=
  let authHeader := c.GetHeader "Authorization"
  if authHeader = "" then
    [.JSON http.StatusUnauthorized [("error", .str "Authorization header is missing")], .Abort]
  else
    let tokenString := strings.TrimPrefix authHeader "Bearer "
    match db.fault sql.existsBlacklistedToken with
    | some _ =>
      [.JSON http.StatusInternalServerError [("error", .str "Failed to verify token")], .Abort]
    | none =>
      let tokenExists := db.blacklisted_tokens.contains tokenString
      if tokenExists then
        [.JSON http.StatusUnauthorized [("error", .str "Token is blacklisted")], .Abort]
      else
        match utils.VerifyToken lib now tokenString with
        | .error _ =>
          [.JSON http.StatusUnauthorized [("error", .str "Invalid or expired token")], .Abort]
        | .ok claims =>
          [.Set "user_id" (.int claims.UserID), .Set "username" (.str claims.Username), .Next]

end middleware

namespace delivery

/-- The members of a JSON object decoded into `struct { ID int }` with the
tag `json:"id"`, starting from the value `req`. -/
def bindIDFields : List (String × JSONValue) → Int → Except String Int
  | [], req => .ok req
  | (k, v) :: rest, req =>
    if keyMatches "id" k then
      match json.decodeInt req v with
      | .error err => .error err
      | .ok n => bindIDFields rest n
    else bindIDFields rest req

/-- The call `c.ShouldBindJSON(&req)` of `DeleteUser`; the result is `req.ID`. -/
def bindDeleteRequest : Body → Except String Int
  | .malformed => .error "invalid request"
  | .scalar .null => .ok 0
  | .scalar _ => .error "json: cannot unmarshal value into struct"
  | .object fields => bindIDFields fields 0

/-- One member of a JSON object decoded into a `users.Pengguna`: the member
goes to the field whose json tag matches its key; `Password` has the tag
`json:"-"` and receives no member. -/
def setPenggunaField (u : users.Pengguna) (k : String) (v : JSONValue) :
    Except String users.Pengguna :=
  if keyMatches "id" k then
    match json.decodeInt u.ID v with
    | .error err => .error err
    | .ok n => .ok { u with ID := n }
  else if keyMatches "username" k then
    match json.decodeString u.Username v with
    | .error err => .error err
    | .ok s => .ok { u with Username := s }
  else if keyMatches "email" k then
    match json.decodeString u.Email v with
    | .error err => .error err
    | .ok s => .ok { u with Email := s }
  else if keyMatches "role_id" k then
    match json.decodeInt u.RoleID v with
    | .error err => .error err
    | .ok n => .ok { u with RoleID := n }
  else if keyMatches "client_id" k then
    match json.decodeInt u.ClientID v with
    | .error err => .error err
    | .ok n => .ok { u with ClientID := n }
  else if keyMatches "created_at" k then
    match json.decodeString u.CreatedAt v with
    | .error err => .error err
    | .ok s => .ok { u with CreatedAt := s }
  else .ok u

/-- The members of a JSON object decoded into a `users.Pengguna`. -/
def bindPenggunaFields : List (String × JSONValue) → users.Pengguna → Except String users.Pengguna
  | [], u => .ok u
  | (k, v) :: rest, u =>
    match setPenggunaField u k v with
    | .error err => .error err
    | .ok u1 => bindPenggunaFields rest u1

/-- The call `c.ShouldBindJSON(&req)` with `req` a `users.Pengguna`. -/
def bindPengguna : Body → Except String users.Pengguna
  | .malformed => .error "invalid request"
  | .scalar .null => .ok users.Pengguna.zero
  | .scalar _ => .error "json: cannot unmarshal value into struct"
  | .object fields => bindPenggunaFields fields users.Pengguna.zero

/-- The method `UserHandler.DeleteUser`: the database it leaves and what it
does to the context. -/
def DeleteUser (db : DB) (c : gin.Context) : DB × List Effect :=
  match bindDeleteRequest c.Body with
  | .error _ => (db, [.JSON http.StatusBadRequest [("error", .str "Invalid input")]])
  | .ok reqID =>
    if reqID = 0 then (db, [.JSON http.StatusBadRequest [("error", .str "ID is required")]])
    else
      match usecase.GetUserByID db reqID with
      | .error _ => (db, [.JSON http.StatusNotFound [("error", .str "User not found")]])
      | .ok user =>
        match usecase.DeleteUser db reqID with
        | (db1, some _) =>
          (db1, [.JSON http.StatusInternalServerError [("error", .str "Failed to delete user")]])
        | (db1, none) =>
          let tokenString := c.GetHeader "Authorization"
          let ok : Effect :=
            .JSON http.StatusOK
              [("message", .str "User successfully deleted"), ("id", .int reqID),
               ("user", .user user)]
          match usecase.BlacklistToken db1 tokenString with
          | (db2, some err) => (db2, [.Log ("Failed to blacklist token: " ++ err), ok])
          | (db2, none) => (db2, [ok])

/-- The method `UserHandler.Login` at clock reading `now`. -/
def Login (lib : Lib) (now : Nat) (db : DB) (c : gin.Context) : List Effect :=
  match bindPengguna c.Body with
  | .error _ => [.JSON http.StatusBadRequest [("error", .str "Invalid input")]]
  | .ok req =>
    match usecase.GetUserByEmail db req.Email with
    | .error _ => [.JSON http.StatusUnauthorized [("error", .str "Email not foun")]]
    | .ok user =>
      if lib.CompareHashAndPassword user.Password req.Password then
        match utils.CreateToken lib now user.ID user.Username with
        | .error _ =>
          [.JSON http.StatusInternalServerError [("error", .str "Failed to generate token")]]
        | .ok token =>
          [.JSON http.StatusOK [("message", .str "Login successful"), ("token", .str token)]]
      else [.JSON http.StatusUnauthorized [("error", .str "Invalid email or password")]]

end delivery

/-! ## An instance of the primitives

`Lib.unary` implements the fields of `Lib` with a unary coding of segments, so
the interface is inhabited and the theorems below can be applied to concrete
requests. -/

namespace Lib

def charEncodable : Encodable Char :=
  Encodable.ofLeftInverse Char.toNat Char.ofNat Char.ofNat_toNat

def stringEncodable : Encodable String :=
  @Encodable.ofLeftInverse _ _ (@List.encodable _ charEncodable) String.data String.mk
    (fun _ => rfl)

/-- The fields of a header, as a tuple. -/
def headerFields (h : jwt.Header) : Option (List Char) × Option (List Char) :=
  (h.alg.map String.data, h.typ.map String.data)

def headerOfFields (t : Option (List Char) × Option (List Char)) : jwt.Header :=
  { alg := t.1.map String.mk, typ := t.2.map String.mk }

/-- The fields of a claim set, as a tuple. -/
def claimsFields (c : utils.Claims) :
    Int × List Char × List Char × List Char × List (List Char) × Option Nat × Option Nat ×
      Option Nat × List Char :=
  (c.UserID, c.Username.data, c.RegisteredClaims.Issuer.data, c.RegisteredClaims.Subject.data,
   c.RegisteredClaims.Audience.map String.data, c.RegisteredClaims.ExpiresAt,
   c.RegisteredClaims.NotBefore, c.RegisteredClaims.IssuedAt, c.RegisteredClaims.ID.data)

def claimsOfFields
    (t : Int × List Char × List Char × List Char × List (List Char) × Option Nat × Option Nat ×
      Option Nat × List Char) : utils.Claims :=
  { UserID := t.1, Username := String.mk t.2.1,
    RegisteredClaims :=
      { Issuer := String.mk t.2.2.1, Subject := String.mk t.2.2.2.1,
        Audience := t.2.2.2.2.1.map String.mk, ExpiresAt := t.2.2.2.2.2.1,
        NotBefore := t.2.2.2.2.2.2.1, IssuedAt := t.2.2.2.2.2.2.2.1,
        ID := String.mk t.2.2.2.2.2.2.2.2 } }

def headerEncodable : Encodable jwt.Header :=
  letI := charEncodable
  Encodable.ofLeftInverse headerFields headerOfFields (by
    intro h
    obtain ⟨alg, typ⟩ := h
    cases alg <;> cases typ <;> rfl)

def claimsEncodable : Encodable utils.Claims :=
  letI := charEncodable
  Encodable.ofLeftInverse claimsFields claimsOfFields (by
    intro c
    obtain ⟨id, name, ⟨iss, sub, aud, exp, nbf, iat, jti⟩⟩ := c
    simp [claimsFields, claimsOfFields, Function.comp_def])

/-- A segment in unary: as many letters `a` as the code of the bytes. -/
def unaryEncode (b : Bytes) : String :=
  String.mk (List.replicate (Encodable.encode b) 'a')

def unaryDecode (s : String) : Option Bytes :=
  if s.data.all (fun c => c == 'a') then Encodable.decode s.data.length else none

/-- The primitives over the unary coding; the MAC of a message is the
characters of the key followed by those of the message, and the hash of a
password is the password after the word `bcrypt:`. -/
def unary : Lib where
  EncodeSegment := unaryEncode
  DecodeSegment := unaryDecode
  marshalHeader := fun h => [headerEncodable.encode h]
  unmarshalHeader := fun b =>
    match b with
    | [n] => headerEncodable.decode n
    | _ => none
  marshalClaims := fun c => [claimsEncodable.encode c]
  unmarshalClaims := fun b =>
    match b with
    | [n] => claimsEncodable.decode n
    | _ => none
  hmac := fun _ key msg => (key ++ msg).data.map Char.toNat
  CompareHashAndPassword := fun hash password => hash == "bcrypt:" ++ password
  decode_encode := by
    intro b
    simp [unaryDecode, unaryEncode]
  encode_no_dot := by
    intro b
    simp [unaryEncode]
  unmarshal_marshalHeader := by
    intro h
    exact headerEncodable.encodek h
  unmarshal_marshalClaims := by
    intro c
    exact claimsEncodable.encodek c

end Lib

/-! ## Terms of the specification -/

namespace utils

/-- The claim set `CreateToken` builds at clock reading `now`. -/
def issuedClaims (now : Nat) (userID : Int) (username : String) : Claims :=
  { UserID := userID, Username := username,
    RegisteredClaims :=
      { jwt.RegisteredClaims.zero with Issuer := "myapp", ExpiresAt := some (now + 24 * 3600) } }

/-- The string `CreateToken` returns at clock reading `now`: header segment,
claims segment and the encoded MAC of the two under `secretKey`. -/
def issuedToken (lib : Lib) (now : Nat) (userID : Int) (username : String) : String :=
  (jwt.NewWithClaims jwt.SigningMethod.HS256 (issuedClaims now userID username)).SigningString lib
    ++ "." ++
    lib.EncodeSegment (lib.hmac jwt.SigningMethod.HS256 secretKey
      ((jwt.NewWithClaims jwt.SigningMethod.HS256
        (issuedClaims now userID username)).SigningString lib))

end utils

namespace jwt

/-- The header a token string carries: its first segment of three, decoded. -/
def headerOf (lib : Lib) (tokenString : String) : Option Header :=
  match strings.Split tokenString '.' with
  | [p0, _, _] => (lib.DecodeSegment p0).bind lib.unmarshalHeader
  | _ => Option.none

/-- The claims a token string carries: its second segment of three, decoded. -/
def claimsOf (lib : Lib) (tokenString : String) : Option utils.Claims :=
  match strings.Split tokenString '.' with
  | [_, p1, _] => (lib.DecodeSegment p1).bind lib.unmarshalClaims
  | _ => Option.none

/-- A token string is well formed when it has three segments of which the
first decodes to a header and the second to claims; otherwise it is
structurally malformed. -/
def wellFormed (lib : Lib) (tokenString : String) : Bool :=
  (headerOf lib tokenString).isSome && (claimsOf lib tokenString).isSome

/-- Whether the header of a token string names an algorithm of the HMAC
family. -/
def namesHMAC (lib : Lib) (tokenString : String) : Bool :=
  match headerOf lib tokenString with
  | some h =>
    match h.alg with
    | some alg => ["HS256", "HS384", "HS512"].contains alg
    | Option.none => false
  | Option.none => false

end jwt

/-! ## Sample requests and stores -/

/-- A delete request for user 1 that presents `Bearer valid_token_string`. -/
def sampleContext : gin.Context :=
  { Header := [("Authorization", "Bearer valid_token_string")],
    Body := .object [("id", .int 1)] }

/-- A request without an Authorization header. -/
def noHeaderContext : gin.Context :=
  { Header := [], Body := .malformed }

/-- A delete request for user 1 that presents the token `CreateToken` issued
to that user at clock reading 0. -/
def issuedContext : gin.Context :=
  { Header := [("Authorization", "Bearer " ++ utils.issuedToken Lib.unary 0 1 "john_doe")],
    Body := .object [("id", .int 1)] }

/-- A login request for an existing email with the password "wrong". -/
def wrongPasswordContext : gin.Context :=
  { Header := [],
    Body := .object [("email", .str "john_doe@example.com"), ("password", .str "wrong")] }

/-- A login request for an email no user has. -/
def unknownEmailContext : gin.Context :=
  { Header := [],
    Body := .object [("email", .str "nobody@example.com"), ("password", .str "wrong")] }

/-- A store with one user, whose stored hash is that of the empty password,
an empty ledger and no failing statement. -/
def sampleDB : DB :=
  { blacklisted_tokens := [],
    fault := fun _ => none,
    users :=
      [{ ID := 1, Username := "john_doe", Email := "john_doe@example.com",
         Password := "bcrypt:", RoleID := 1, ClientID := 1, CreatedAt := "2024-01-01" }] }

/-- The sample store with `valid_token_string` in the ledger. -/
def revokedDB : DB :=
  { sampleDB with blacklisted_tokens := ["valid_token_string"] }

/-- The store of `revokedDB` refusing every INSERT into the ledger. -/
def insertFailingDB : DB :=
  { revokedDB with
    fault := fun q => if q = sql.insertBlacklistedToken then some "connection refused" else none }

/-- The sample store refusing the ledger lookup. -/
def lookupFailingDB : DB :=
  { sampleDB with
    fault := fun q => if q = sql.existsBlacklistedToken then some "connection refused" else none }

/-- A store whose one user has the stored hash of the password "s3cret". -/
def secretDB : DB :=
  { blacklisted_tokens := [],
    fault := fun _ => none,
    users :=
      [{ ID := 1, Username := "john_doe", Email := "john_doe@example.com",
         Password := "bcrypt:s3cret", RoleID := 1, ClientID := 1, CreatedAt := "2024-01-01" }] }

/-- A store that refuses every statement. -/
def downDB : DB :=
  { sampleDB with fault := fun _ => some "connection refused" }

/-- A delete request for the id 999, which no user of the sample stores has. -/
def missingUserContext : gin.Context :=
  { Header := [("Authorization", "Bearer valid_token_string")],
    Body := .object [("id", .int 999)] }

/-- A delete request whose body gives the id 0. -/
def zeroIDContext : gin.Context :=
  { Header := [("Authorization", "Bearer valid_token_string")],
    Body := .object [("id", .int 0)] }

/-- A delete request whose body has no member "id". -/
def noIDContext : gin.Context :=
  { Header := [("Authorization", "Bearer valid_token_string")],
    Body := .object [] }

/-! ## Lemmas on the string functions -/

theorem strings.TrimPrefix_append (pre t : String) :
    strings.TrimPrefix (pre ++ t) pre = t := by
  simp [strings.TrimPrefix, strings.HasPrefix, String.data_append]

theorem strings.append_ne_right (pre t : String) (h : pre ≠ "") : pre ++ t ≠ t := by
  intro e
  have hdata := congrArg String.data e
  rw [String.data_append, List.append_left_eq_self] at hdata
  exact h (String.ext hdata)

theorem strings.splitChars_of_not_mem (sep : Char) (a : List Char) (h : sep ∉ a) :
    strings.splitChars sep a = [a] := by
  induction a with
  | nil => rfl
  | cons c cs ih =>
    have hc : c ≠ sep := fun e => h (by simp [e])
    have hcs : sep ∉ cs := fun m => h (List.mem_cons_of_mem _ m)
    simp [strings.splitChars, hc, ih hcs]

theorem strings.splitChars_append (sep : Char) (a b : List Char) (h : sep ∉ a) :
    strings.splitChars sep (a ++ sep :: b) = a :: strings.splitChars sep b := by
  induction a with
  | nil => simp [strings.splitChars]
  | cons c cs ih =>
    have hc : c ≠ sep := fun e => h (by simp [e])
    have hcs : sep ∉ cs := fun m => h (List.mem_cons_of_mem _ m)
    simp [strings.splitChars, hc, ih hcs]

theorem strings.Split_three (a b c : String) (ha : '.' ∉ a.data) (hb : '.' ∉ b.data)
    (hc : '.' ∉ c.data) :
    strings.Split (a ++ "." ++ b ++ "." ++ c) '.' = [a, b, c] := by
  have hdata : (a ++ "." ++ b ++ "." ++ c).data = a.data ++ '.' :: (b.data ++ '.' :: c.data) := by
    simp [String.data_append]
  simp [strings.Split, hdata, strings.splitChars_append, strings.splitChars_of_not_mem, ha, hb, hc]

/-! ## Lemmas on tokens -/

theorem jwt.GetSigningMethod_Alg (m : jwt.SigningMethod) :
    jwt.GetSigningMethod m.Alg = some m := by
  cases m <;> decide

theorem jwt.Alg_of_GetSigningMethod (alg : String) (m : jwt.SigningMethod)
    (h : jwt.GetSigningMethod alg = some m) : m.Alg = alg := by
  have := List.find?_some h
  simpa using this

theorem jwt.isHMAC_Alg (m : jwt.SigningMethod) (h : m.isHMAC = true) :
    ["HS256", "HS384", "HS512"].contains m.Alg = true := by
  cases m <;> first | decide | simp [jwt.SigningMethod.isHMAC] at h

theorem utils.CreateToken_eq (lib : Lib) (now : Nat) (userID : Int) (username : String) :
    utils.CreateToken lib now userID username = .ok (utils.issuedToken lib now userID username) := by
  simp [utils.CreateToken, utils.issuedToken, utils.issuedClaims, jwt.Token.SignedString,
    jwt.SigningMethod.Sign, jwt.NewWithClaims, jwt.SigningMethod.isHMAC]

theorem jwt.ParseUnverified_signed (lib : Lib) (m : jwt.SigningMethod) (claims : utils.Claims)
    (sig : String) (hsig : '.' ∉ sig.data) :
    jwt.ParseUnverified lib ((jwt.NewWithClaims m claims).SigningString lib ++ "." ++ sig) =
      .ok ({ Raw := (jwt.NewWithClaims m claims).SigningString lib ++ "." ++ sig,
             Method := m, Header := { alg := some m.Alg, typ := some "JWT" }, Claims := claims,
             Signature := "", Valid := false },
           lib.EncodeSegment (lib.marshalHeader { alg := some m.Alg, typ := some "JWT" }),
           lib.EncodeSegment (lib.marshalClaims claims), sig) := by
  unfold jwt.ParseUnverified jwt.Token.SigningString
  rw [strings.Split_three _ _ _ (lib.encode_no_dot _) (lib.encode_no_dot _) hsig]
  simp [jwt.NewWithClaims, lib.decode_encode, lib.unmarshal_marshalHeader,
    lib.unmarshal_marshalClaims, jwt.GetSigningMethod_Alg]

theorem utils.VerifyToken_issued (lib : Lib) (now later : Nat) (userID : Int) (username : String) :
    utils.VerifyToken lib later (utils.issuedToken lib now userID username) =
      if later < now + 24 * 3600 then .ok (utils.issuedClaims now userID username)
      else .error "token is expired" := by
  unfold utils.VerifyToken jwt.ParseWithClaims utils.issuedToken
  rw [jwt.ParseUnverified_signed lib _ _ _ (lib.encode_no_dot _)]
  by_cases h : later < now + 24 * 3600
  · simp [utils.keyFunc, jwt.SigningMethod.isHMAC, jwt.SigningMethod.Verify, lib.decode_encode,
      jwt.RegisteredClaims.Valid, utils.issuedClaims, jwt.RegisteredClaims.zero, h,
      jwt.Token.SigningString, jwt.NewWithClaims]
  · simp [utils.keyFunc, jwt.SigningMethod.isHMAC, jwt.SigningMethod.Verify, lib.decode_encode,
      jwt.RegisteredClaims.Valid, utils.issuedClaims, jwt.RegisteredClaims.zero, h,
      jwt.Token.SigningString, jwt.NewWithClaims, jwt.ValidationErrorExpired]

theorem jwt.ParseUnverified_ok (lib : Lib) (s : String) (token : jwt.Token) (p0 p1 p2 : String)
    (h : jwt.ParseUnverified lib s = .ok (token, p0, p1, p2)) :
    jwt.headerOf lib s = some token.Header ∧ jwt.claimsOf lib s = some token.Claims ∧
      ∃ alg, token.Header.alg = some alg ∧ jwt.GetSigningMethod alg = some token.Method := by
  unfold jwt.ParseUnverified at h
  unfold jwt.headerOf jwt.claimsOf
  split at h
  next q0 q1 q2 hsplit =>
    cases hd0 : lib.DecodeSegment q0 with
    | none => simp [hd0] at h; split at h <;> simp at h
    | some headerBytes =>
      cases hh : lib.unmarshalHeader headerBytes with
      | none => simp [hd0, hh] at h
      | some header =>
        cases hd1 : lib.DecodeSegment q1 with
        | none => simp [hd0, hh, hd1] at h
        | some claimBytes =>
          cases hc : lib.unmarshalClaims claimBytes with
          | none => simp [hd0, hh, hd1, hc] at h
          | some claims =>
            cases ha : header.alg with
            | none => simp [hd0, hh, hd1, hc, ha] at h
            | some alg =>
              cases hm : jwt.GetSigningMethod alg with
              | none => simp [hd0, hh, hd1, hc, ha, hm] at h
              | some method =>
                simp [hd0, hh, hd1, hc, ha, hm] at h
                obtain ⟨ht, -⟩ := h
                subst ht
                simp [hh, hc, ha, hm]
  next => simp at h

/-! ## The auth gate and the handlers -/

theorem delivery.DeleteUser_sampleDB (c : gin.Context) (hb : c.Body = .object [("id", .int 1)]) :
    delivery.DeleteUser sampleDB c =
      ({ sampleDB with users := [], blacklisted_tokens := [c.GetHeader "Authorization"] },
       [.JSON 200
          [("message", .str "User successfully deleted"), ("id", .int 1),
           ("user", .user
              { ID := 1, Username := "john_doe", Email := "john_doe@example.com",
                Password := "", RoleID := 1, ClientID := 1, CreatedAt := "2024-01-01" })]]) := by
  have hk : keyMatches "id" "id" = true := by decide
  have hf : fitsInt 1 = true := by decide
  simp [delivery.DeleteUser, hb, delivery.bindDeleteRequest, delivery.bindIDFields, hk, hf,
    json.decodeInt, usecase.GetUserByID, repository.GetByID, usecase.DeleteUser,
    repository.Delete, usecase.BlacklistToken, repository.SaveBlacklistedToken, sampleDB,
    users.Pengguna.zero, http.StatusOK]

theorem issuedContext_header :
    issuedContext.GetHeader "Authorization" =
      "Bearer " ++ utils.issuedToken Lib.unary 0 1 "john_doe" := by
  simp [issuedContext, gin.Context.GetHeader, List.lookup]

theorem issuedContext_header_ne : issuedContext.GetHeader "Authorization" ≠ "" := by
  rw [issuedContext_header]
  intro e
  have hdata := congrArg String.data e
  simp [String.data_append] at hdata

/-- C1. For a request with a non-empty Authorization header and a ledger lookup
that does not fail, `JWTMiddleware` calls `Next` if and only if the token
string (the header without a leading "Bearer ") is not in `blacklisted_tokens`
and `VerifyToken` succeeds on it. -/
theorem JWTMiddleware_admits_iff (lib : Lib) (now : Nat) (db : DB) (c : gin.Context)
    (hHeader : c.GetHeader "Authorization" ≠ "")
    (hLookup : db.fault sql.existsBlacklistedToken = none) :
    Effect.Next ∈ middleware.JWTMiddleware lib now db c ↔
      (strings.TrimPrefix (c.GetHeader "Authorization") "Bearer " ∉ db.blacklisted_tokens ∧
        ∃ claims,
          utils.VerifyToken lib now (strings.TrimPrefix (c.GetHeader "Authorization") "Bearer ")
            = .ok claims) := by
  unfold middleware.JWTMiddleware
  simp only [hHeader, hLookup, if_false]
  by_cases hmem : strings.TrimPrefix (c.GetHeader "Authorization") "Bearer " ∈ db.blacklisted_tokens
  · simp [hmem]
  · cases hv : utils.VerifyToken lib now
        (strings.TrimPrefix (c.GetHeader "Authorization") "Bearer ") with
    | error e => simp [hmem]
    | ok claims => simp [hmem]

theorem JWTMiddleware_admits_iff_witness :
    issuedContext.GetHeader "Authorization" ≠ "" ∧
    sampleDB.fault sql.existsBlacklistedToken = none ∧
    (Effect.Next ∈ middleware.JWTMiddleware Lib.unary 1 sampleDB issuedContext ↔
      (strings.TrimPrefix (issuedContext.GetHeader "Authorization") "Bearer "
          ∉ sampleDB.blacklisted_tokens ∧
        ∃ claims,
          utils.VerifyToken Lib.unary 1
            (strings.TrimPrefix (issuedContext.GetHeader "Authorization") "Bearer ")
            = .ok claims)) :=
  ⟨issuedContext_header_ne, rfl,
    JWTMiddleware_admits_iff Lib.unary 1 sampleDB issuedContext issuedContext_header_ne rfl⟩

/-- C2. At the request of the end-to-end scenario (user 1 deleted by a request
that presents the token issued to that user), `DeleteUser` answers 200 and
records the whole header value, "Bearer " included, in the ledger; the same
header presented one second later is admitted by `JWTMiddleware`, not
rejected as revoked. The test's request leaves "Bearer valid_token_string" in
the ledger where the test expects "valid_token_string". -/
theorem DeleteUser_blacklists_whole_header :
    (delivery.DeleteUser sampleDB issuedContext).2 =
      [.JSON 200
        [("message", .str "User successfully deleted"), ("id", .int 1),
         ("user", .user
            { ID := 1, Username := "john_doe", Email := "john_doe@example.com",
              Password := "", RoleID := 1, ClientID := 1, CreatedAt := "2024-01-01" })]] ∧
    (delivery.DeleteUser sampleDB issuedContext).1.blacklisted_tokens =
      ["Bearer " ++ utils.issuedToken Lib.unary 0 1 "john_doe"] ∧
    middleware.JWTMiddleware Lib.unary 1 (delivery.DeleteUser sampleDB issuedContext).1
        issuedContext =
      [.Set "user_id" (.int 1), .Set "username" (.str "john_doe"), .Next] ∧
    (delivery.DeleteUser sampleDB sampleContext).1.blacklisted_tokens =
      ["Bearer valid_token_string"] := by
  have hne : "Bearer " ++ utils.issuedToken Lib.unary 0 1 "john_doe" ≠
      utils.issuedToken Lib.unary 0 1 "john_doe" :=
    strings.append_ne_right _ _ (by decide)
  have hne0 : "Bearer " ++ utils.issuedToken Lib.unary 0 1 "john_doe" ≠ "" := by
    rw [← issuedContext_header]
    exact issuedContext_header_ne
  rw [delivery.DeleteUser_sampleDB issuedContext rfl, delivery.DeleteUser_sampleDB sampleContext rfl]
  refine ⟨rfl, ?_, ?_, by decide⟩
  · simp [issuedContext_header]
  · unfold middleware.JWTMiddleware
    simp only [issuedContext_header, strings.TrimPrefix_append, hne0, if_false]
    have hfault : sampleDB.fault sql.existsBlacklistedToken = none := rfl
    simp [hfault, utils.VerifyToken_issued, utils.issuedClaims, Ne.symm hne]

theorem delivery.setPenggunaField_Password (u u1 : users.Pengguna) (k : String) (v : JSONValue)
    (h : delivery.setPenggunaField u k v = .ok u1) : u1.Password = u.Password := by
  unfold delivery.setPenggunaField at h
  repeat' split at h
  all_goals first
    | (injection h with h; subst h; rfl)
    | (exact absurd h (by simp))

theorem delivery.bindPenggunaFields_Password (fields : List (String × JSONValue))
    (u req : users.Pengguna) (h : delivery.bindPenggunaFields fields u = .ok req) :
    req.Password = u.Password := by
  induction fields generalizing u with
  | nil =>
    simp [delivery.bindPenggunaFields] at h
    rw [h]
  | cons kv rest ih =>
    obtain ⟨k, v⟩ := kv
    unfold delivery.bindPenggunaFields at h
    cases hs : delivery.setPenggunaField u k v with
    | error e => simp [hs] at h
    | ok u1 =>
      simp [hs] at h
      rw [ih u1 h, delivery.setPenggunaField_Password u u1 k v hs]

theorem delivery.bindPengguna_Password (body : Body) (req : users.Pengguna)
    (h : delivery.bindPengguna body = .ok req) : req.Password = "" := by
  unfold delivery.bindPengguna at h
  split at h
  · simp at h
  · simp at h
    rw [← h]
    rfl
  · simp at h
  · rw [delivery.bindPenggunaFields_Password _ _ _ h]
    rfl

theorem delivery.bindPengguna_login (email password : String) :
    delivery.bindPengguna (.object [("email", .str email), ("password", .str password)]) =
      .ok { users.Pengguna.zero with Email := email } := by
  have h1 : keyMatches "id" "email" = false := by decide
  have h2 : keyMatches "username" "email" = false := by decide
  have h3 : keyMatches "email" "email" = true := by decide
  have h4 : keyMatches "id" "password" = false := by decide
  have h5 : keyMatches "username" "password" = false := by decide
  have h6 : keyMatches "email" "password" = false := by decide
  have h7 : keyMatches "role_id" "password" = false := by decide
  have h8 : keyMatches "client_id" "password" = false := by decide
  have h9 : keyMatches "created_at" "password" = false := by decide
  simp [delivery.bindPengguna, delivery.bindPenggunaFields, delivery.setPenggunaField,
    h1, h2, h3, h4, h5, h6, h7, h8, h9, json.decodeString]

/-- C3. The secret `Login` compares is never the submitted one: binding a
request body into `Pengguna` leaves `Password` empty (its tag is `json:"-"`).
At a login for an existing user whose stored hash is that of the empty
password, the submitted password "wrong" does not match the stored hash and
`Login` still answers 200 with a token. -/
theorem Login_ignores_submitted_password :
    (∀ body req, delivery.bindPengguna body = .ok req → req.Password = "") ∧
    Lib.unary.CompareHashAndPassword "bcrypt:" "wrong" = false ∧
    delivery.Login Lib.unary 0 sampleDB wrongPasswordContext =
      [.JSON 200
        [("message", .str "Login successful"),
         ("token", .str (utils.issuedToken Lib.unary 0 1 "john_doe"))]] := by
  refine ⟨delivery.bindPengguna_Password, by decide, ?_⟩
  have hcmp : Lib.unary.CompareHashAndPassword "bcrypt:" "" = true := by decide
  simp [delivery.Login, wrongPasswordContext, delivery.bindPengguna_login, usecase.GetUserByEmail,
    repository.GetByEmail, sampleDB, users.Pengguna.zero, hcmp, utils.CreateToken_eq,
    http.StatusOK]

/-- C4, as stated, fails: against one store, a login for an unknown email and
a login for a known email whose comparison fails are both answered 401, with
different bodies. -/
theorem Login_failure_bodies_differ :
    delivery.Login Lib.unary 0 secretDB unknownEmailContext =
      [.JSON 401 [("error", .str "Email not foun")]] ∧
    delivery.Login Lib.unary 0 secretDB wrongPasswordContext =
      [.JSON 401 [("error", .str "Invalid email or password")]] ∧
    delivery.Login Lib.unary 0 secretDB unknownEmailContext ≠
      delivery.Login Lib.unary 0 secretDB wrongPasswordContext := by
  have hcmp : Lib.unary.CompareHashAndPassword "bcrypt:s3cret" "" = false := by decide
  have h1 : delivery.Login Lib.unary 0 secretDB unknownEmailContext =
      [.JSON 401 [("error", .str "Email not foun")]] := by
    simp [delivery.Login, unknownEmailContext, delivery.bindPengguna_login,
      usecase.GetUserByEmail, repository.GetByEmail, secretDB, users.Pengguna.zero,
      http.StatusUnauthorized]
  have h2 : delivery.Login Lib.unary 0 secretDB wrongPasswordContext =
      [.JSON 401 [("error", .str "Invalid email or password")]] := by
    simp [delivery.Login, wrongPasswordContext, delivery.bindPengguna_login,
      usecase.GetUserByEmail, repository.GetByEmail, secretDB, users.Pengguna.zero, hcmp,
      http.StatusUnauthorized]
  refine ⟨h1, h2, ?_⟩
  rw [h1, h2]
  decide

/-- C4, amended. Of two login requests against one store, the first with an
email the lookup does not find and the second with an email of a user whose
stored hash fails the comparison with the bound request's password, both are
answered 401 with no token: the first with the body "Email not foun", the
second with the body "Invalid email or password". -/
theorem Login_unauthorized_responses (lib : Lib) (now : Nat) (db : DB) (c1 c2 : gin.Context)
    (req1 req2 user : users.Pengguna) (err : String)
    (hbind1 : delivery.bindPengguna c1.Body = .ok req1)
    (hunknown : usecase.GetUserByEmail db req1.Email = .error err)
    (hbind2 : delivery.bindPengguna c2.Body = .ok req2)
    (hknown : usecase.GetUserByEmail db req2.Email = .ok user)
    (hwrong : lib.CompareHashAndPassword user.Password req2.Password = false) :
    delivery.Login lib now db c1 = [.JSON 401 [("error", .str "Email not foun")]] ∧
    delivery.Login lib now db c2 = [.JSON 401 [("error", .str "Invalid email or password")]] := by
  constructor
  · simp [delivery.Login, hbind1, hunknown, http.StatusUnauthorized]
  · simp [delivery.Login, hbind2, hknown, hwrong, http.StatusUnauthorized]

theorem Login_unauthorized_responses_witness :
    delivery.bindPengguna unknownEmailContext.Body =
      .ok { users.Pengguna.zero with Email := "nobody@example.com" } ∧
    usecase.GetUserByEmail secretDB "nobody@example.com" = .error "user not found" ∧
    delivery.bindPengguna wrongPasswordContext.Body =
      .ok { users.Pengguna.zero with Email := "john_doe@example.com" } ∧
    usecase.GetUserByEmail secretDB "john_doe@example.com" =
      .ok { ID := 1, Username := "john_doe", Email := "john_doe@example.com",
            Password := "bcrypt:s3cret", RoleID := 1, ClientID := 1,
            CreatedAt := "2024-01-01" } ∧
    Lib.unary.CompareHashAndPassword "bcrypt:s3cret" "" = false ∧
    delivery.Login Lib.unary 0 secretDB unknownEmailContext =
      [.JSON 401 [("error", .str "Email not foun")]] ∧
    delivery.Login Lib.unary 0 secretDB wrongPasswordContext =
      [.JSON 401 [("error", .str "Invalid email or password")]] :=
  have hb1 : delivery.bindPengguna unknownEmailContext.Body =
      .ok { users.Pengguna.zero with Email := "nobody@example.com" } :=
    delivery.bindPengguna_login _ _
  have hb2 : delivery.bindPengguna wrongPasswordContext.Body =
      .ok { users.Pengguna.zero with Email := "john_doe@example.com" } :=
    delivery.bindPengguna_login _ _
  have hu1 : usecase.GetUserByEmail secretDB "nobody@example.com" = .error "user not found" := by
    simp [usecase.GetUserByEmail, repository.GetByEmail, secretDB]
  have hu2 : usecase.GetUserByEmail secretDB "john_doe@example.com" =
      .ok { ID := 1, Username := "john_doe", Email := "john_doe@example.com",
            Password := "bcrypt:s3cret", RoleID := 1, ClientID := 1,
            CreatedAt := "2024-01-01" } := by
    simp [usecase.GetUserByEmail, repository.GetByEmail, secretDB]
  have hc : Lib.unary.CompareHashAndPassword "bcrypt:s3cret" "" = false := by decide
  ⟨hb1, hu1, hb2, hu2, hc,
    Login_unauthorized_responses Lib.unary 0 secretDB unknownEmailContext wrongPasswordContext
      _ _ _ _ hb1 hu1 hb2 hu2 hc⟩

/-- C5, as stated, fails: a request without header, a request with a revoked
token and a request with an invalid token get three different bodies, and a
request whose ledger lookup fails gets status 500. -/
theorem JWTMiddleware_rejections_differ :
    middleware.JWTMiddleware Lib.unary 0 sampleDB noHeaderContext =
      [.JSON 401 [("error", .str "Authorization header is missing")], .Abort] ∧
    middleware.JWTMiddleware Lib.unary 0 revokedDB sampleContext =
      [.JSON 401 [("error", .str "Token is blacklisted")], .Abort] ∧
    middleware.JWTMiddleware Lib.unary 0 sampleDB sampleContext =
      [.JSON 401 [("error", .str "Invalid or expired token")], .Abort] ∧
    middleware.JWTMiddleware Lib.unary 0 lookupFailingDB sampleContext =
      [.JSON 500 [("error", .str "Failed to verify token")], .Abort] ∧
    middleware.JWTMiddleware Lib.unary 0 sampleDB noHeaderContext ≠
      middleware.JWTMiddleware Lib.unary 0 revokedDB sampleContext := by
  have h1 : middleware.JWTMiddleware Lib.unary 0 sampleDB noHeaderContext =
      [.JSON 401 [("error", .str "Authorization header is missing")], .Abort] := by decide
  have h2 : middleware.JWTMiddleware Lib.unary 0 revokedDB sampleContext =
      [.JSON 401 [("error", .str "Token is blacklisted")], .Abort] := by decide
  have h3 : middleware.JWTMiddleware Lib.unary 0 sampleDB sampleContext =
      [.JSON 401 [("error", .str "Invalid or expired token")], .Abort] := by decide
  have h4 : middleware.JWTMiddleware Lib.unary 0 lookupFailingDB sampleContext =
      [.JSON 500 [("error", .str "Failed to verify token")], .Abort] := by decide
  refine ⟨h1, h2, h3, h4, ?_⟩
  rw [h1, h2]
  decide

/-- C5, amended. A request `JWTMiddleware` rejects is answered by one JSON
body and aborted: 401 "Authorization header is missing" when the header is
empty, 500 "Failed to verify token" when the ledger lookup fails, 401 "Token
is blacklisted" when the token is in the ledger, 401 "Invalid or expired
token" when `VerifyToken` fails. The three 401 bodies differ from each
other. -/
theorem JWTMiddleware_rejection_response (lib : Lib) (now : Nat) (db : DB) (c : gin.Context)
    (hrej : Effect.Next ∉ middleware.JWTMiddleware lib now db c) :
    (c.GetHeader "Authorization" = "" ∧
      middleware.JWTMiddleware lib now db c =
        [.JSON 401 [("error", .str "Authorization header is missing")], .Abort]) ∨
    (c.GetHeader "Authorization" ≠ "" ∧ db.fault sql.existsBlacklistedToken ≠ none ∧
      middleware.JWTMiddleware lib now db c =
        [.JSON 500 [("error", .str "Failed to verify token")], .Abort]) ∨
    (c.GetHeader "Authorization" ≠ "" ∧ db.fault sql.existsBlacklistedToken = none ∧
      strings.TrimPrefix (c.GetHeader "Authorization") "Bearer " ∈ db.blacklisted_tokens ∧
      middleware.JWTMiddleware lib now db c =
        [.JSON 401 [("error", .str "Token is blacklisted")], .Abort]) ∨
    (c.GetHeader "Authorization" ≠ "" ∧ db.fault sql.existsBlacklistedToken = none ∧
      strings.TrimPrefix (c.GetHeader "Authorization") "Bearer " ∉ db.blacklisted_tokens ∧
      (∃ err, utils.VerifyToken lib now
          (strings.TrimPrefix (c.GetHeader "Authorization") "Bearer ") = .error err) ∧
      middleware.JWTMiddleware lib now db c =
        [.JSON 401 [("error", .str "Invalid or expired token")], .Abort]) := by
  unfold middleware.JWTMiddleware at hrej ⊢
  by_cases hh : c.GetHeader "Authorization" = ""
  · simp [hh, http.StatusUnauthorized]
  · cases hf : db.fault sql.existsBlacklistedToken with
    | some e => simp [hh, hf, http.StatusInternalServerError]
    | none =>
      by_cases hmem :
          strings.TrimPrefix (c.GetHeader "Authorization") "Bearer " ∈ db.blacklisted_tokens
      · simp [hh, hf, hmem, http.StatusUnauthorized]
      · cases hv : utils.VerifyToken lib now
            (strings.TrimPrefix (c.GetHeader "Authorization") "Bearer ") with
        | error e => simp [hh, hf, hmem, hv, http.StatusUnauthorized]
        | ok claims => simp [hh, hf, hmem, hv] at hrej

theorem JWTMiddleware_rejection_response_witness :
    Effect.Next ∉ middleware.JWTMiddleware Lib.unary 0 revokedDB sampleContext ∧
    ((sampleContext.GetHeader "Authorization" = "" ∧
      middleware.JWTMiddleware Lib.unary 0 revokedDB sampleContext =
        [.JSON 401 [("error", .str "Authorization header is missing")], .Abort]) ∨
    (sampleContext.GetHeader "Authorization" ≠ "" ∧
      revokedDB.fault sql.existsBlacklistedToken ≠ none ∧
      middleware.JWTMiddleware Lib.unary 0 revokedDB sampleContext =
        [.JSON 500 [("error", .str "Failed to verify token")], .Abort]) ∨
    (sampleContext.GetHeader "Authorization" ≠ "" ∧
      revokedDB.fault sql.existsBlacklistedToken = none ∧
      strings.TrimPrefix (sampleContext.GetHeader "Authorization") "Bearer "
        ∈ revokedDB.blacklisted_tokens ∧
      middleware.JWTMiddleware Lib.unary 0 revokedDB sampleContext =
        [.JSON 401 [("error", .str "Token is blacklisted")], .Abort]) ∨
    (sampleContext.GetHeader "Authorization" ≠ "" ∧
      revokedDB.fault sql.existsBlacklistedToken = none ∧
      strings.TrimPrefix (sampleContext.GetHeader "Authorization") "Bearer "
        ∉ revokedDB.blacklisted_tokens ∧
      (∃ err, utils.VerifyToken Lib.unary 0
          (strings.TrimPrefix (sampleContext.GetHeader "Authorization") "Bearer ")
          = .error err) ∧
      middleware.JWTMiddleware Lib.unary 0 revokedDB sampleContext =
        [.JSON 401 [("error", .str "Invalid or expired token")], .Abort])) :=
  ⟨by decide, JWTMiddleware_rejection_response Lib.unary 0 revokedDB sampleContext (by decide)⟩

/-- C6. Whenever the header is missing, the ledger lookup fails, the token is
in the ledger or `VerifyToken` fails, `JWTMiddleware` aborts, does not call
`Next` and sets no context key. A context key is set only on the admitting
path, and there the handler does exactly: set "user_id" to the `UserID` and
"username" to the `Username` of the claims `VerifyToken` returned, then call
`Next`. -/
theorem JWTMiddleware_frame (lib : Lib) (now : Nat) (db : DB) (c : gin.Context) :
    ((c.GetHeader "Authorization" = "" ∨ db.fault sql.existsBlacklistedToken ≠ none ∨
        strings.TrimPrefix (c.GetHeader "Authorization") "Bearer " ∈ db.blacklisted_tokens ∨
        (∃ err, utils.VerifyToken lib now
          (strings.TrimPrefix (c.GetHeader "Authorization") "Bearer ") = .error err)) →
      Effect.Abort ∈ middleware.JWTMiddleware lib now db c ∧
      Effect.Next ∉ middleware.JWTMiddleware lib now db c ∧
      ∀ k v, Effect.Set k v ∉ middleware.JWTMiddleware lib now db c) ∧
    (∀ k v, Effect.Set k v ∈ middleware.JWTMiddleware lib now db c →
      ∃ claims,
        utils.VerifyToken lib now (strings.TrimPrefix (c.GetHeader "Authorization") "Bearer ")
          = .ok claims ∧
        middleware.JWTMiddleware lib now db c =
          [.Set "user_id" (.int claims.UserID), .Set "username" (.str claims.Username), .Next]) ∧
    (∀ claims, c.GetHeader "Authorization" ≠ "" → db.fault sql.existsBlacklistedToken = none →
      strings.TrimPrefix (c.GetHeader "Authorization") "Bearer " ∉ db.blacklisted_tokens →
      utils.VerifyToken lib now (strings.TrimPrefix (c.GetHeader "Authorization") "Bearer ")
        = .ok claims →
      middleware.JWTMiddleware lib now db c =
        [.Set "user_id" (.int claims.UserID), .Set "username" (.str claims.Username), .Next]) := by
  unfold middleware.JWTMiddleware
  by_cases hh : c.GetHeader "Authorization" = ""
  · simp [hh]
  · cases hf : db.fault sql.existsBlacklistedToken with
    | some e => simp [hh, hf]
    | none =>
      by_cases hmem :
          strings.TrimPrefix (c.GetHeader "Authorization") "Bearer " ∈ db.blacklisted_tokens
      · simp [hh, hf, hmem]
      · cases hv : utils.VerifyToken lib now
            (strings.TrimPrefix (c.GetHeader "Authorization") "Bearer ") with
        | error e => simp [hh, hf, hmem, hv]
        | ok claims => simp [hh, hf, hmem, hv]

/-- C7. For every user id and username, `CreateToken` succeeds, and
`VerifyToken` on the string it returns, at any clock reading before the
expiry, succeeds with claims that carry that id and that username. -/
theorem CreateToken_VerifyToken_roundtrip (lib : Lib) (now later : Nat) (userID : Int)
    (username : String) (hbefore : later < now + 24 * 3600) :
    ∃ tokenString, utils.CreateToken lib now userID username = .ok tokenString ∧
      ∃ claims, utils.VerifyToken lib later tokenString = .ok claims ∧
        claims.UserID = userID ∧ claims.Username = username := by
  refine ⟨_, utils.CreateToken_eq lib now userID username, utils.issuedClaims now userID username,
    ?_, rfl, rfl⟩
  rw [utils.VerifyToken_issued, if_pos hbefore]

theorem CreateToken_VerifyToken_roundtrip_witness :
    (3600 : Nat) < 0 + 24 * 3600 ∧
    ∃ tokenString, utils.CreateToken Lib.unary 0 1 "john_doe" = .ok tokenString ∧
      ∃ claims, utils.VerifyToken Lib.unary 3600 tokenString = .ok claims ∧
        claims.UserID = 1 ∧ claims.Username = "john_doe" :=
  ⟨by decide, CreateToken_VerifyToken_roundtrip Lib.unary 0 3600 1 "john_doe" (by decide)⟩

/-- C8. The token `CreateToken` returns at clock reading `now` carries the
issuer "myapp" and the expiry `now` + 24 hours, and `VerifyToken` returns an
error for it at every clock reading from `now` + 24 hours on. -/
theorem CreateToken_issuer_and_expiry (lib : Lib) (now : Nat) (userID : Int) (username : String) :
    ∃ tokenString, utils.CreateToken lib now userID username = .ok tokenString ∧
      (∃ claims, jwt.claimsOf lib tokenString = some claims ∧
        claims.RegisteredClaims.Issuer = "myapp" ∧
        claims.RegisteredClaims.ExpiresAt = some (now + 24 * 3600)) ∧
      ∀ later, now + 24 * 3600 ≤ later →
        ∃ err, utils.VerifyToken lib later tokenString = .error err := by
  refine ⟨_, utils.CreateToken_eq lib now userID username,
    ⟨utils.issuedClaims now userID username, ?_, rfl, rfl⟩, ?_⟩
  · have h := jwt.ParseUnverified_signed lib jwt.SigningMethod.HS256
      (utils.issuedClaims now userID username)
      (lib.EncodeSegment (lib.hmac jwt.SigningMethod.HS256 utils.secretKey
        ((jwt.NewWithClaims jwt.SigningMethod.HS256
          (utils.issuedClaims now userID username)).SigningString lib)))
      (lib.encode_no_dot _)
    exact (jwt.ParseUnverified_ok lib _ _ _ _ _ h).2.1
  · intro later hlater
    refine ⟨"token is expired", ?_⟩
    rw [utils.VerifyToken_issued, if_neg (by omega)]

theorem utils.VerifyToken_ok (lib : Lib) (now : Nat) (s : String) (claims : utils.Claims)
    (h : utils.VerifyToken lib now s = .ok claims) :
    jwt.wellFormed lib s = true ∧ jwt.namesHMAC lib s = true := by
  unfold utils.VerifyToken jwt.ParseWithClaims at h
  cases hp : jwt.ParseUnverified lib s with
  | error e => simp [hp] at h
  | ok r =>
    obtain ⟨token, p0, p1, p2⟩ := r
    obtain ⟨hhead, hclaims, alg, halg, hmeth⟩ := jwt.ParseUnverified_ok lib s token p0 p1 p2 hp
    by_cases hm : token.Method.isHMAC = true
    · have hname := jwt.isHMAC_Alg token.Method hm
      rw [jwt.Alg_of_GetSigningMethod alg token.Method hmeth] at hname
      simp [jwt.wellFormed, jwt.namesHMAC, hhead, hclaims, halg]
      simpa using hname
    · simp [hp, utils.keyFunc, hm] at h

/-- C9. `VerifyToken` returns for every input string, with claims or with an
error; it returns an error whenever the string is structurally malformed (not
three segments, or a header or claims segment that does not decode) or its
header does not name an algorithm of the HMAC family, whatever the signature
segment holds. -/
theorem VerifyToken_total_and_rejects (lib : Lib) (now : Nat) (s : String) :
    ((∃ claims, utils.VerifyToken lib now s = .ok claims) ∨
      (∃ err, utils.VerifyToken lib now s = .error err)) ∧
    ((jwt.wellFormed lib s = false ∨ jwt.namesHMAC lib s = false) →
      ∃ err, utils.VerifyToken lib now s = .error err) := by
  cases hv : utils.VerifyToken lib now s with
  | error e => simp
  | ok claims =>
    have h := utils.VerifyToken_ok lib now s claims hv
    simp [h.1, h.2]

theorem usecase.BlacklistToken_eq (db : DB) (token : String) :
    usecase.BlacklistToken db token =
      match db.fault sql.insertBlacklistedToken with
      | some _ => (db, some "failed to blacklist token")
      | none => ({ db with blacklisted_tokens := db.blacklisted_tokens ++ [token] }, none) := by
  unfold usecase.BlacklistToken repository.SaveBlacklistedToken
  cases db.fault sql.insertBlacklistedToken <;> rfl

/-- C10. On a store that executes the INSERT, `BlacklistToken` on a token that
is already in the ledger returns no error and leaves the token revoked: the
ledger lookup still finds it, and the lookup for every token string answers
what it answered before the call. -/
theorem BlacklistToken_idempotent (db : DB) (token : String)
    (hrevoked : token ∈ db.blacklisted_tokens)
    (hstore : db.fault sql.insertBlacklistedToken = none) :
    (usecase.BlacklistToken db token).2 = none ∧
    (usecase.BlacklistToken db token).1.blacklisted_tokens.contains token = true ∧
    ∀ t, (usecase.BlacklistToken db token).1.blacklisted_tokens.contains t =
      db.blacklisted_tokens.contains t := by
  rw [usecase.BlacklistToken_eq, hstore]
  refine ⟨rfl, by simp [hrevoked], ?_⟩
  intro t
  by_cases ht : t = token
  · subst ht
    simp [hrevoked]
  · simp [ht]

theorem BlacklistToken_idempotent_witness :
    "valid_token_string" ∈ revokedDB.blacklisted_tokens ∧
    revokedDB.fault sql.insertBlacklistedToken = none ∧
    ((usecase.BlacklistToken revokedDB "valid_token_string").2 = none ∧
    (usecase.BlacklistToken revokedDB "valid_token_string").1.blacklisted_tokens.contains
      "valid_token_string" = true ∧
    ∀ t, (usecase.BlacklistToken revokedDB "valid_token_string").1.blacklisted_tokens.contains t =
      revokedDB.blacklisted_tokens.contains t) :=
  ⟨by decide, rfl, BlacklistToken_idempotent revokedDB "valid_token_string" (by decide) rfl⟩

/-! ## Deleting a user -/

theorem usecase.GetUserByID_not_found (db : DB) (id : Int)
    (h : db.users.find? (fun r => r.ID == id) = none) :
    usecase.GetUserByID db id = .error "user not found" := by
  unfold usecase.GetUserByID repository.GetByID
  cases db.fault sql.selectUserByID <;> simp [h]

theorem usecase.DeleteUser_eq (db : DB) (id : Int) :
    usecase.DeleteUser db id =
      match db.fault sql.deleteUser with
      | some _ => (db, some "failed to delete user")
      | none => ({ db with users := db.users.filter (fun r => !(r.ID == id)) }, none) := by
  unfold usecase.DeleteUser repository.Delete
  cases db.fault sql.deleteUser <;> rfl

/-- C11. In `DeleteUser`, once the user lookup and the deletion have succeeded,
a failing `BlacklistToken` changes nothing but the log: the handler writes one
log line and answers 200 "User successfully deleted" with the id and the user
it looked up, and the store it leaves has the user's rows deleted and the
ledger as it was. -/
theorem DeleteUser_blacklist_failure_swallowed (db : DB) (c : gin.Context) (reqID : Int)
    (user : users.Pengguna) (err : String)
    (hbind : delivery.bindDeleteRequest c.Body = .ok reqID) (hid : reqID ≠ 0)
    (hlookup : usecase.GetUserByID db reqID = .ok user)
    (hdelete : (usecase.DeleteUser db reqID).2 = none)
    (hblacklist :
      (usecase.BlacklistToken (usecase.DeleteUser db reqID).1 (c.GetHeader "Authorization")).2
        = some err) :
    (delivery.DeleteUser db c).2 =
      [.Log ("Failed to blacklist token: " ++ err),
       .JSON 200
         [("message", .str "User successfully deleted"), ("id", .int reqID),
          ("user", .user user)]] ∧
    (delivery.DeleteUser db c).1.users = db.users.filter (fun r => !(r.ID == reqID)) ∧
    (delivery.DeleteUser db c).1.blacklisted_tokens = db.blacklisted_tokens := by
  unfold delivery.DeleteUser
  simp only [hbind, hlookup]
  rw [if_neg hid]
  rw [usecase.DeleteUser_eq] at hdelete hblacklist ⊢
  cases hd : db.fault sql.deleteUser with
  | some e => simp [hd] at hdelete
  | none =>
    simp only [hd] at hblacklist ⊢
    rw [usecase.BlacklistToken_eq] at hblacklist ⊢
    cases hi : db.fault sql.insertBlacklistedToken with
    | none => simp [hi] at hblacklist
    | some e =>
      simp [hi] at hblacklist
      simp [hi, hblacklist, http.StatusOK]

theorem DeleteUser_blacklist_failure_swallowed_witness :
    delivery.bindDeleteRequest sampleContext.Body = .ok 1 ∧
    (1 : Int) ≠ 0 ∧
    usecase.GetUserByID insertFailingDB 1 =
      .ok { ID := 1, Username := "john_doe", Email := "john_doe@example.com",
            Password := "", RoleID := 1, ClientID := 1, CreatedAt := "2024-01-01" } ∧
    (usecase.DeleteUser insertFailingDB 1).2 = none ∧
    (usecase.BlacklistToken (usecase.DeleteUser insertFailingDB 1).1
        (sampleContext.GetHeader "Authorization")).2 = some "failed to blacklist token" ∧
    ((delivery.DeleteUser insertFailingDB sampleContext).2 =
      [.Log ("Failed to blacklist token: " ++ "failed to blacklist token"),
       .JSON 200
         [("message", .str "User successfully deleted"), ("id", .int 1),
          ("user", .user
            { ID := 1, Username := "john_doe", Email := "john_doe@example.com",
              Password := "", RoleID := 1, ClientID := 1, CreatedAt := "2024-01-01" })]] ∧
    (delivery.DeleteUser insertFailingDB sampleContext).1.users =
      insertFailingDB.users.filter (fun r => !(r.ID == 1)) ∧
    (delivery.DeleteUser insertFailingDB sampleContext).1.blacklisted_tokens =
      insertFailingDB.blacklisted_tokens) :=
  ⟨rfl, by decide, rfl, by decide, by decide,
    DeleteUser_blacklist_failure_swallowed insertFailingDB sampleContext 1 _ _
      rfl (by decide) rfl (by decide) (by decide)⟩

/-- C12. A delete request whose id is 0, or whose body has no id, is answered
400 "ID is required" whatever the store holds or refuses, and leaves the store
as it was. A delete request whose non-zero id no user of the store has is
answered 404 "User not found" and leaves the store as it was: no row deleted,
no token added to the ledger. -/
theorem DeleteUser_missing_id_or_user (db : DB) (c : gin.Context) (reqID : Int)
    (hbind : delivery.bindDeleteRequest c.Body = .ok reqID) :
    (reqID = 0 →
      delivery.DeleteUser db c =
        (db, [.JSON 400 [("error", .str "ID is required")]])) ∧
    (reqID ≠ 0 → db.users.find? (fun r => r.ID == reqID) = none →
      delivery.DeleteUser db c =
        (db, [.JSON 404 [("error", .str "User not found")]])) := by
  unfold delivery.DeleteUser
  simp only [hbind]
  constructor
  · intro h0
    rw [if_pos h0]
    rfl
  · intro hne hnone
    rw [if_neg hne, usecase.GetUserByID_not_found db reqID hnone]
    rfl

theorem DeleteUser_missing_id_or_user_witness :
    delivery.bindDeleteRequest missingUserContext.Body = .ok 999 ∧
    delivery.bindDeleteRequest zeroIDContext.Body = .ok 0 ∧
    delivery.bindDeleteRequest noIDContext.Body = .ok 0 ∧
    sampleDB.users.find? (fun r => r.ID == 999) = none ∧
    delivery.DeleteUser sampleDB missingUserContext =
      (sampleDB, [.JSON 404 [("error", .str "User not found")]]) ∧
    delivery.DeleteUser downDB zeroIDContext =
      (downDB, [.JSON 400 [("error", .str "ID is required")]]) ∧
    delivery.DeleteUser downDB noIDContext =
      (downDB, [.JSON 400 [("error", .str "ID is required")]]) :=
  ⟨rfl, rfl, rfl, by decide,
    (DeleteUser_missing_id_or_user sampleDB missingUserContext 999 rfl).2
      (by decide) (by decide),
    (DeleteUser_missing_id_or_user downDB zeroIDContext 0 rfl).1 rfl,
    (DeleteUser_missing_id_or_user downDB noIDContext 0 rfl).1 rfl⟩
